import Mathlib

/-!
Verification of the twapi repository core: the VarInt codec
(src/compression/varint.go) and the browser client protocol engine
(src/browser/client.go), shallowly embedded in Lean.

Byte buffers are `List Nat` (each entry a byte value), Go `int` is 64-bit and
is embedded as `Int`, and Go durations (`time.Duration`, int64 nanoseconds)
are embedded as `Int`.  A Go function that can panic is embedded as an
`Option`-valued function whose `none` is the panic.
-/

namespace Compression

/-- Modelled from the spec: `maxBytesInVarInt` is a package constant of the
repository that is not among the provided source files; spec §4.1 fixes the
maximum encoded length of one integer at 5 bytes. -/
def maxBytesInVarInt : Nat := 5

/-- The error returned by `Unpack` on an empty buffer (`ErrNoDataToUnpack`). -/
inductive VarIntError where
  | noDataToUnpack
  deriving DecidableEq, Repr

/-- The 2nd..nth bytes appended by the inner loop of `Pack` (varint.go lines
123-134): emit the low 7 bits of the remaining value, shift it right by 7, and
set the extend bit (bit 7) on the emitted byte iff the value is still nonzero.
The argument `m` is the remaining value after the first 6 bits were emitted;
at that point the Go `value` variable is nonnegative (line 115 turned the
packed value into its nonnegative complement), hence a `Nat`.  The loop writes
into the fixed array `data := make([]byte, maxBytesInVarInt)` (line 111), so
`fuel` is the number of array slots left after `data[0]`; exhausting them
would be an index-out-of-range panic in Go, modelled by `none`. -/
def packGroups : Nat → Nat → Option (List Nat)
  | 0, _ => none
  | fuel + 1, m =>
    if m >>> 7 = 0 then some [m &&& 127]
    else (packGroups fuel (m >>> 7)).map (fun bs => ((m &&& 127) ||| 128) :: bs)

/-- Sign bit of the first encoded byte: `byte(value>>(intSize*8-7)) & 0b01000000`
(varint.go line 114), with Go `int` 64-bit (`intSize = 8`) and `byte(x)` the
low 8 bits of the two's-complement value. -/
def signBits (value : Int) : Nat :=
  ((value >>> (57 : Nat)) % 256).toNat &&& 64

/-- The magnitude packed after the sign: `value = value ^ (value >> (intSize*8-1))`
(varint.go line 115), i.e. bitwise complement for negatives; nonnegative for
every 32-bit value, hence returned as a `Nat`. -/
def magnitude (value : Int) : Nat :=
  (Int.xor value (value >>> (63 : Nat))).toNat

/-- The byte sequence `Pack` appends for one value: the first byte carries the
sign flag (bit 6) and the low 6 bits of the magnitude (varint.go lines
114-118); if more magnitude bits remain, the first byte also gets the extend
bit (line 121) and the inner loop emits the remaining 7-bit groups
(lines 123-134). -/
def packBytes (value : Int) : Option (List Nat) :=
  if magnitude value >>> 6 = 0 then some [signBits value ||| (magnitude value &&& 63)]
  else (packGroups (maxBytesInVarInt - 1) (magnitude value >>> 6)).map
    (fun bs => ((signBits value ||| (magnitude value &&& 63)) ||| 128) :: bs)

/-- `Pack` (varint.go lines 99-140): `none` models a panic, either on a value
outside the signed 32-bit range (lines 104-106) or on overflowing the fixed
5-byte scratch array (which an in-range value never does); otherwise the
encoded bytes are appended to the buffer
(`v.Compressed = append(v.Compressed, data...)`, line 139), leaving the
existing contents untouched. -/
def Pack (value : Int) (buf : List Nat) : Option (List Nat) :=
  if value < -2147483648 ∨ 2147483647 < value then none
  else (packBytes value).map (fun bs => buf ++ bs)

/-- The loop of `Unpack` over the 2nd..nth bytes (varint.go lines 82-88).
`cur` is the byte at the current index, `data` holds the bytes after it,
`i` is the Go loop counter and `fuel = maxBytesInVarInt - 1 - i` the remaining
iterations.  `none` models the out-of-bounds panic at `data[index]` (line 87)
when the continuation bit of the current byte is set but no byte follows. -/
def unpackExt (fuel i : Nat) (cur value : Nat) (data : List Nat) :
    Option (Nat × List Nat) :=
  match fuel with
  | 0 => some (value, data)
  | fuel + 1 =>
    if cur < 128 then some (value, data)
    else
      match data with
      | [] => none
      | b :: rest => unpackExt fuel (i + 1) b (value ||| ((b &&& 127) <<< (6 + 7 * i))) rest

/-- The observable result of one `Unpack` call: the decoded value, the error
of the Go return pair, and the buffer contents after the call
(`v.Compressed = v.Compressed[index:]`, line 94). -/
structure UnpackOut where
  value : Int
  err : Option VarIntError
  rest : List Nat
  deriving DecidableEq, Repr

/-- `Unpack` (varint.go lines 63-96).  On an empty buffer it returns value 0,
`ErrNoDataToUnpack` and the untouched buffer (lines 69-72).  Otherwise byte 0
yields the sign (`(data[0] >> 6) & 1`) and the low 6 data bits
(`data[0] & 0b00111111`), the loop collects continuation bytes, and
`value ^= -sign` (line 91) restores a negative value.  `none` models the
out-of-bounds panic inside the loop. -/
def Unpack (data : List Nat) : Option UnpackOut :=
  match data with
  | [] => some ⟨0, some .noDataToUnpack, []⟩
  | b0 :: rest =>
    (unpackExt (maxBytesInVarInt - 1) 0 b0 (b0 &&& 63) rest).map
      (fun vr => ⟨Int.xor (Int.ofNat vr.1) (-(Int.ofNat ((b0 >>> 6) &&& 1))), none, vr.2⟩)

/-! Helper lemmas for the round-trip proof. -/

theorem lor_shiftLeft_eq_add {a : Nat} (b k : Nat) (h : a < 2 ^ k) :
    a ||| (b <<< k) = a + b * 2 ^ k := by
  rw [Nat.shiftLeft_eq, Nat.or_comm, Nat.mul_comm b, ← Nat.mul_add_lt_is_or h b]
  ring

theorem and_127_eq (x : Nat) : x &&& 127 = x % 128 := by
  have h := Nat.and_pow_two_sub_one_eq_mod x 7
  norm_num at h
  exact h

theorem and_63_eq (x : Nat) : x &&& 63 = x % 64 := by
  have h := Nat.and_pow_two_sub_one_eq_mod x 6
  norm_num at h
  exact h

theorem shiftRight_7_eq (x : Nat) : x >>> 7 = x / 128 := by
  rw [Nat.shiftRight_eq_div_pow]

theorem shiftRight_6_eq (x : Nat) : x >>> 6 = x / 64 := by
  rw [Nat.shiftRight_eq_div_pow]

theorem lor_128_eq_add {x : Nat} (h : x < 128) : x ||| 128 = x + 128 := by
  have h2 := lor_shiftLeft_eq_add (a := x) 1 7 (by omega)
  norm_num at h2
  exact h2

/-- The `Unpack` loop returns immediately when the current byte has no
continuation bit or the iteration bound is reached. -/
theorem unpackExt_stop (fuel i cur value : Nat) (data : List Nat)
    (h : cur < 128 ∨ fuel = 0) :
    unpackExt fuel i cur value data = some (value, data) := by
  cases fuel with
  | zero => rfl
  | succ fuel =>
    rcases h with h | h
    · simp [unpackExt, h]
    · exact absurd h (Nat.succ_ne_zero fuel)

/-- Core round-trip invariant for the continuation bytes: the bytes emitted by
the `Pack` loop for a nonzero remaining value `m` are consumed by the `Unpack`
loop, which adds `m` shifted to its bit offset onto the accumulated value and
leaves exactly the trailing bytes. -/
theorem unpackExt_packGroups :
    ∀ (fuel m i value cur : Nat) (rest : List Nat),
      128 ≤ cur → 0 < m → m < 2 ^ (7 * fuel) → value < 2 ^ (6 + 7 * i) →
      ∃ gs, packGroups fuel m = some gs ∧
        unpackExt fuel i cur value (gs ++ rest) =
          some (value + m * 2 ^ (6 + 7 * i), rest) := by
  intro fuel
  induction fuel with
  | zero =>
    intro m i value cur rest _ hm hlt _
    simp at hlt
    omega
  | succ fuel ih =>
    intro m i value cur rest hcur hm hlt hval
    by_cases h7 : m >>> 7 = 0
    · have hm128 : m < 128 := by rw [shiftRight_7_eq] at h7; omega
      have hmm : m &&& 127 = m := by rw [and_127_eq]; omega
      refine ⟨[m &&& 127], by simp [packGroups, h7], ?_⟩
      simp only [List.cons_append, List.nil_append, unpackExt]
      rw [if_neg (by omega)]
      rw [hmm, hmm, unpackExt_stop _ _ _ _ _ (Or.inl hm128),
        lor_shiftLeft_eq_add _ _ hval]
    · have hmpos : 0 < m >>> 7 := Nat.pos_of_ne_zero h7
      have hlt' : m >>> 7 < 2 ^ (7 * fuel) := by
        rw [shiftRight_7_eq]
        have hpow : (2:Nat) ^ (7 * (fuel + 1)) = 2 ^ (7 * fuel) * 128 := by
          rw [Nat.mul_succ, pow_add]; norm_num
        rw [Nat.div_lt_iff_lt_mul (by norm_num)]
        omega
      have hb127 : ((m &&& 127) ||| 128) &&& 127 = m &&& 127 := by
        have hx : m &&& 127 < 128 := by rw [and_127_eq]; omega
        rw [lor_128_eq_add hx, and_127_eq ((m &&& 127) + 128)]
        omega
      have hble : 128 ≤ (m &&& 127) ||| 128 := by
        rw [lor_128_eq_add (by rw [and_127_eq]; omega)]
        omega
      have hval2 : value ||| ((((m &&& 127) ||| 128) &&& 127) <<< (6 + 7 * i)) =
          value + (m &&& 127) * 2 ^ (6 + 7 * i) := by
        rw [hb127, lor_shiftLeft_eq_add _ _ hval]
      have hvalbound : value + (m &&& 127) * 2 ^ (6 + 7 * i) < 2 ^ (6 + 7 * (i + 1)) := by
        have h1 : m &&& 127 ≤ 127 := by rw [and_127_eq]; omega
        have h2 : (2:Nat) ^ (6 + 7 * (i + 1)) = 2 ^ (6 + 7 * i) * 128 := by
          have : 6 + 7 * (i + 1) = (6 + 7 * i) + 7 := by ring
          rw [this, pow_add]; norm_num
        have h3 : (m &&& 127) * 2 ^ (6 + 7 * i) ≤ 127 * 2 ^ (6 + 7 * i) :=
          Nat.mul_le_mul_right _ h1
        omega
      obtain ⟨gs', hpg', hupk'⟩ := ih (m >>> 7) (i + 1)
        (value + (m &&& 127) * 2 ^ (6 + 7 * i)) ((m &&& 127) ||| 128) rest
        hble hmpos hlt' hvalbound
      refine ⟨((m &&& 127) ||| 128) :: gs', by simp [packGroups, h7, hpg'], ?_⟩
      simp only [List.cons_append, unpackExt]
      rw [if_neg (by omega), hval2, hupk']
      have harith : value + (m &&& 127) * 2 ^ (6 + 7 * i) +
          m >>> 7 * 2 ^ (6 + 7 * (i + 1)) = value + m * 2 ^ (6 + 7 * i) := by
        rw [and_127_eq, shiftRight_7_eq]
        have h2 : (2:Nat) ^ (6 + 7 * (i + 1)) = 2 ^ (6 + 7 * i) * 128 := by
          have : 6 + 7 * (i + 1) = (6 + 7 * i) + 7 := by ring
          rw [this, pow_add]; norm_num
        rw [h2]
        have hsplit : 128 * (m / 128) + m % 128 = m := Nat.div_add_mod m 128
        calc value + m % 128 * 2 ^ (6 + 7 * i) + m / 128 * (2 ^ (6 + 7 * i) * 128)
            = value + (128 * (m / 128) + m % 128) * 2 ^ (6 + 7 * i) := by ring
          _ = value + m * 2 ^ (6 + 7 * i) := by rw [hsplit]
      rw [harith]

/-- The Go sign-bit extraction `byte(value>>57) & 0b01000000` yields 64 for a
negative in-range value and 0 otherwise. -/
theorem signBits_eq (v : Int) (h1 : -2147483648 ≤ v) (h2 : v ≤ 2147483647) :
    signBits v = if v < 0 then 64 else 0 := by
  cases v with
  | ofNat n =>
    rw [Int.ofNat_eq_natCast] at h2 ⊢
    have h3 : n ≤ 2147483647 := by exact_mod_cast h2
    have hn : n < 2 ^ 57 := by
      calc n ≤ 2147483647 := h3
        _ < 2 ^ 57 := by norm_num
    unfold signBits
    rw [show (((n : Int)) >>> (57 : Nat)) = Int.ofNat (n >>> 57) from rfl]
    rw [Nat.shiftRight_eq_div_pow, Nat.div_eq_of_lt hn]
    rw [if_neg (by omega)]
    decide
  | negSucc n =>
    have h3 : n ≤ 2147483647 := by
      rw [Int.negSucc_eq] at h1
      omega
    have hn : n < 2 ^ 57 := by
      calc n ≤ 2147483647 := h3
        _ < 2 ^ 57 := by norm_num
    unfold signBits
    rw [show ((Int.negSucc n) >>> (57 : Nat)) = Int.negSucc (n >>> 57) from rfl]
    rw [Nat.shiftRight_eq_div_pow, Nat.div_eq_of_lt hn]
    rw [if_pos (Int.negSucc_lt_zero n)]
    decide

/-- The Go complement trick `value ^ (value >> 63)` yields the nonnegative
magnitude: the value itself for nonnegative input, the bitwise complement
`-(v+1)` for negative input; in both cases below `2^31` for in-range input. -/
theorem magnitude_spec (v : Int) (h1 : -2147483648 ≤ v) (h2 : v ≤ 2147483647) :
    (magnitude v : Int) = (if v < 0 then -(v + 1) else v) ∧ magnitude v < 2 ^ 31 := by
  cases v with
  | ofNat n =>
    rw [Int.ofNat_eq_natCast] at h2 ⊢
    have h3 : n ≤ 2147483647 := by exact_mod_cast h2
    have hn : n < 2 ^ 63 := by
      calc n ≤ 2147483647 := h3
        _ < 2 ^ 63 := by norm_num
    have hsh : ((n : Int)) >>> (63 : Nat) = Int.ofNat 0 := by
      rw [show (((n : Int)) >>> (63 : Nat)) = Int.ofNat (n >>> 63) from rfl]
      rw [Nat.shiftRight_eq_div_pow, Nat.div_eq_of_lt hn]
    unfold magnitude
    rw [hsh, show Int.xor ((n : Int)) (Int.ofNat 0) = Int.ofNat (n ^^^ 0) from rfl,
      Nat.xor_zero]
    constructor
    · rw [if_neg (by omega)]
      simp
    · simpa using by omega
  | negSucc n =>
    have h3 : n ≤ 2147483647 := by
      rw [Int.negSucc_eq] at h1
      omega
    have hn : n < 2 ^ 63 := by
      calc n ≤ 2147483647 := h3
        _ < 2 ^ 63 := by norm_num
    have hsh : (Int.negSucc n) >>> (63 : Nat) = Int.negSucc 0 := by
      rw [show ((Int.negSucc n) >>> (63 : Nat)) = Int.negSucc (n >>> 63) from rfl]
      rw [Nat.shiftRight_eq_div_pow, Nat.div_eq_of_lt hn]
    unfold magnitude
    rw [hsh, show Int.xor (Int.negSucc n) (Int.negSucc 0) = Int.ofNat (n ^^^ 0) from rfl,
      Nat.xor_zero]
    constructor
    · rw [if_pos (Int.negSucc_lt_zero n), Int.negSucc_eq]
      simp
    · simpa using by omega

/-- Bit-level facts about the first encoded byte when the sign flag is set:
sign recovery, data-bit recovery, and the continuation-bit threshold, with and
without the extend bit. -/
theorem b0_facts_pos : ∀ x : Fin 64,
    ((64 ||| (x : Nat)) >>> 6) &&& 1 = 1 ∧ (64 ||| (x : Nat)) &&& 63 = (x : Nat) ∧
    (64 ||| (x : Nat)) < 128 ∧
    (((64 ||| (x : Nat)) ||| 128) >>> 6) &&& 1 = 1 ∧
    ((64 ||| (x : Nat)) ||| 128) &&& 63 = (x : Nat) ∧
    128 ≤ (64 ||| (x : Nat)) ||| 128 := by decide

/-- Bit-level facts about the first encoded byte when the sign flag is clear. -/
theorem b0_facts_zero : ∀ x : Fin 64,
    ((x : Nat) >>> 6) &&& 1 = 0 ∧ (x : Nat) &&& 63 = (x : Nat) ∧ (x : Nat) < 128 ∧
    (((x : Nat) ||| 128) >>> 6) &&& 1 = 0 ∧ ((x : Nat) ||| 128) &&& 63 = (x : Nat) ∧
    128 ≤ (x : Nat) ||| 128 := by decide

/-- Round-trip at the byte level: the bytes `Pack` emits for an in-range value
are decoded by `Unpack` back to that value, consuming exactly those bytes and
leaving any trailing bytes untouched. -/
theorem packBytes_unpack (v : Int) (h1 : -2147483648 ≤ v) (h2 : v ≤ 2147483647)
    (rest : List Nat) :
    ∃ bs, packBytes v = some bs ∧ Unpack (bs ++ rest) = some ⟨v, none, rest⟩ := by
  obtain ⟨hmagInt, hmagLt⟩ := magnitude_spec v h1 h2
  have hsgn := signBits_eq v h1 h2
  have hm63lt : magnitude v &&& 63 < 64 := by rw [and_63_eq]; omega
  have hfacts :
      ((signBits v ||| (magnitude v &&& 63)) >>> 6) &&& 1 = (if v < 0 then 1 else 0) ∧
      (signBits v ||| (magnitude v &&& 63)) &&& 63 = magnitude v &&& 63 ∧
      (signBits v ||| (magnitude v &&& 63)) < 128 ∧
      (((signBits v ||| (magnitude v &&& 63)) ||| 128) >>> 6) &&& 1 =
        (if v < 0 then 1 else 0) ∧
      ((signBits v ||| (magnitude v &&& 63)) ||| 128) &&& 63 = magnitude v &&& 63 ∧
      128 ≤ (signBits v ||| (magnitude v &&& 63)) ||| 128 := by
    by_cases hv : v < 0
    · simpa [hsgn, hv] using b0_facts_pos ⟨magnitude v &&& 63, hm63lt⟩
    · simpa [hsgn, hv] using b0_facts_zero ⟨magnitude v &&& 63, hm63lt⟩
  obtain ⟨hf1, hf2, hf3, hf4, hf5, hf6⟩ := hfacts
  have hfinal : Int.xor (Int.ofNat (magnitude v))
      (-(Int.ofNat (if v < 0 then 1 else 0))) = v := by
    by_cases hv : v < 0
    · rw [if_pos hv]
      rw [show -(Int.ofNat 1) = Int.negSucc 0 from rfl]
      rw [show Int.xor (Int.ofNat (magnitude v)) (Int.negSucc 0)
          = Int.negSucc (magnitude v ^^^ 0) from rfl, Nat.xor_zero]
      rw [if_pos hv] at hmagInt
      rw [Int.negSucc_eq]
      omega
    · rw [if_neg hv]
      rw [show -(Int.ofNat 0) = Int.ofNat 0 from rfl]
      rw [show Int.xor (Int.ofNat (magnitude v)) (Int.ofNat 0)
          = Int.ofNat (magnitude v ^^^ 0) from rfl, Nat.xor_zero]
      rw [if_neg hv] at hmagInt
      rw [Int.ofNat_eq_natCast]
      exact hmagInt
  by_cases h6 : magnitude v >>> 6 = 0
  · have hmlt64 : magnitude v < 64 := by rw [shiftRight_6_eq] at h6; omega
    have hmm : magnitude v &&& 63 = magnitude v := by rw [and_63_eq]; omega
    refine ⟨[signBits v ||| (magnitude v &&& 63)], by simp [packBytes, h6], ?_⟩
    show Unpack ((signBits v ||| (magnitude v &&& 63)) :: rest) = _
    simp only [Unpack]
    rw [unpackExt_stop _ _ _ _ _ (Or.inl hf3)]
    simp only [Option.map_some']
    rw [hf1, hf2, hmm, hfinal]
  · have hmpos : 0 < magnitude v >>> 6 := Nat.pos_of_ne_zero h6
    have hlt28 : magnitude v >>> 6 < 2 ^ (7 * 4) := by
      rw [shiftRight_6_eq]
      have e1 : (2:Nat) ^ 31 = 2147483648 := by norm_num
      have e2 : (2:Nat) ^ (7 * 4) = 268435456 := by norm_num
      omega
    have hval0 : magnitude v &&& 63 < 2 ^ (6 + 7 * 0) := by simpa using hm63lt
    obtain ⟨gs, hpg, hupk⟩ := unpackExt_packGroups 4 (magnitude v >>> 6) 0
      (magnitude v &&& 63) ((signBits v ||| (magnitude v &&& 63)) ||| 128) rest
      hf6 hmpos hlt28 hval0
    refine ⟨((signBits v ||| (magnitude v &&& 63)) ||| 128) :: gs, ?_, ?_⟩
    · simp [packBytes, h6, show maxBytesInVarInt - 1 = 4 from rfl, hpg]
    · show Unpack ((((signBits v ||| (magnitude v &&& 63)) ||| 128) :: gs) ++ rest) = _
      simp only [List.cons_append, Unpack, show maxBytesInVarInt - 1 = 4 from rfl]
      rw [hf5, hupk]
      simp only [Option.map_some']
      have hmsum : (magnitude v &&& 63) + magnitude v >>> 6 * 2 ^ (6 + 7 * 0) =
          magnitude v := by
        rw [and_63_eq, shiftRight_6_eq]
        have e : (2:Nat) ^ (6 + 7 * 0) = 64 := by norm_num
        rw [e]
        omega
      rw [hmsum, hf4, hfinal]

/-- `Pack` on an in-range value appends its encoding to the buffer and
`Unpack` decodes it back, for any buffer prefix and any trailing bytes. -/
theorem Pack_Unpack_general (v : Int) (h1 : -2147483648 ≤ v) (h2 : v ≤ 2147483647)
    (buf rest : List Nat) :
    ∃ bs, Pack v buf = some (buf ++ bs) ∧ Unpack (bs ++ rest) = some ⟨v, none, rest⟩ := by
  obtain ⟨bs, hpb, hup⟩ := packBytes_unpack v h1 h2 rest
  refine ⟨bs, ?_, hup⟩
  simp only [Pack]
  rw [if_neg (by omega), hpb]
  rfl

/-- The helper loop of `Unpack` hits the out-of-bounds panic iff the run of
continuation-flagged bytes it follows (starting at `cur`, continuing through
`data`, capped at `fuel` iterations) runs off the end of the buffer. -/
def contOverrun : Nat → Nat → List Nat → Bool
  | 0, _, _ => false
  | _ + 1, cur, [] => decide (128 ≤ cur)
  | fuel + 1, cur, b :: rest => decide (128 ≤ cur) && contOverrun fuel b rest

theorem unpackExt_none_iff :
    ∀ (fuel i cur value : Nat) (data : List Nat),
      unpackExt fuel i cur value data = none ↔ contOverrun fuel cur data = true := by
  intro fuel
  induction fuel with
  | zero =>
    intro i cur value data
    simp [unpackExt, contOverrun]
  | succ fuel ih =>
    intro i cur value data
    cases data with
    | nil =>
      by_cases hcur : cur < 128
      · simp [unpackExt, contOverrun, hcur]
      · simp [unpackExt, contOverrun, hcur]
        omega
    | cons b rest =>
      by_cases hcur : cur < 128
      · simp [unpackExt, contOverrun, hcur]
      · simp [unpackExt, contOverrun, hcur, ih]
        intro _
        omega

theorem contOverrun_false_iff :
    ∀ (fuel cur : Nat) (tail : List Nat),
      contOverrun fuel cur tail = false ↔
      (∀ j, j < fuel →
        (∀ k, k ≤ j → k < (cur :: tail).length ∧ 128 ≤ (cur :: tail).getD k 0) →
        j + 1 < (cur :: tail).length) := by
  intro fuel
  induction fuel with
  | zero =>
    intro cur tail
    constructor
    · intro _ j hj _
      omega
    · intro _
      rfl
  | succ fuel ih =>
    intro cur tail
    cases tail with
    | nil =>
      constructor
      · intro h j hj hant
        have hcur : ¬ 128 ≤ cur := by simpa [contOverrun] using h
        have h0 := (hant 0 (by omega)).2
        simp at h0
        omega
      · intro h
        by_cases hcur : 128 ≤ cur
        · exfalso
          have hant : ∀ k, k ≤ 0 →
              k < (cur :: ([] : List Nat)).length ∧
              128 ≤ (cur :: ([] : List Nat)).getD k 0 := by
            intro k hk
            have hk0 : k = 0 := by omega
            subst hk0
            simp [hcur]
          have h0 := h 0 (by omega) hant
          simp at h0
        · simp [contOverrun, hcur]
    | cons b rest =>
      by_cases hcur : 128 ≤ cur
      · rw [show contOverrun (fuel + 1) cur (b :: rest) =
            (decide (128 ≤ cur) && contOverrun fuel b rest) from rfl]
        simp only [hcur, decide_True, Bool.true_and]
        rw [ih b rest]
        constructor
        · intro hsmall j hj hant
          cases j with
          | zero =>
            simp
          | succ j' =>
            have hant' : ∀ k, k ≤ j' →
                k < (b :: rest).length ∧ 128 ≤ (b :: rest).getD k 0 := by
              intro k hk
              have hk1 := hant (k + 1) (by omega)
              simpa using hk1
            have hj' := hsmall j' (by omega) hant'
            simp at hj' ⊢
            omega
        · intro hbig j hj hant
          have hant' : ∀ k, k ≤ j + 1 →
              k < (cur :: b :: rest).length ∧ 128 ≤ (cur :: b :: rest).getD k 0 := by
            intro k hk
            cases k with
            | zero => simp [hcur]
            | succ k' =>
              have hk1 := hant k' (by omega)
              simpa using hk1
          have hj1 := hbig (j + 1) (by omega) hant'
          simp at hj1 ⊢
          omega
      · rw [show contOverrun (fuel + 1) cur (b :: rest) =
            (decide (128 ≤ cur) && contOverrun fuel b rest) from rfl]
        simp only [hcur, decide_False, Bool.false_and, true_iff]
        intro j hj hant
        have h0 := (hant 0 (by omega)).2
        simp at h0
        omega

/-- The in-bounds condition asserted by the claim, read literally: every byte
with the continuation flag set among the first four bytes of the buffer is
followed by another byte. -/
def claimedInBounds (data : List Nat) : Prop :=
  ∀ j, j < maxBytesInVarInt - 1 → j < data.length → 128 ≤ data.getD j 0 →
    j + 1 < data.length

/-- The in-bounds condition that actually characterises `Unpack` staying in
bounds: every byte in the initial run of continuation-flagged bytes — the
bytes the decoder examines, capped at the first four — is followed by another
byte. -/
def chainInBounds (data : List Nat) : Prop :=
  ∀ j, j < maxBytesInVarInt - 1 →
    (∀ k, k ≤ j → k < data.length ∧ 128 ≤ data.getD k 0) → j + 1 < data.length

/-- C1: for every signed 32-bit integer v, `Pack(v)` on a fresh (empty)
`VarInt` buffer followed by `Unpack()` returns exactly v with no error and
consumes exactly the bytes `Pack` produced, leaving the buffer empty. -/
theorem claim_C1_roundtrip (v : Int)
    (h1 : -2147483648 ≤ v) (h2 : v ≤ 2147483647) :
    ∃ bs, Pack v [] = some bs ∧ Unpack bs = some ⟨v, none, []⟩ := by
  obtain ⟨bs, hp, hu⟩ := Pack_Unpack_general v h1 h2 [] []
  exact ⟨bs, by simpa using hp, by simpa using hu⟩

/-- Witness for C1 at the boundary values v = 0, 2147483647, −2147483648, −1. -/
theorem claim_C1_roundtrip_witness :
    (-2147483648 ≤ (0 : Int) ∧ (0 : Int) ≤ 2147483647 ∧
      ∃ bs, Pack 0 [] = some bs ∧ Unpack bs = some ⟨0, none, []⟩) ∧
    (-2147483648 ≤ (2147483647 : Int) ∧ (2147483647 : Int) ≤ 2147483647 ∧
      ∃ bs, Pack 2147483647 [] = some bs ∧
        Unpack bs = some ⟨2147483647, none, []⟩) ∧
    (-2147483648 ≤ (-2147483648 : Int) ∧ (-2147483648 : Int) ≤ 2147483647 ∧
      ∃ bs, Pack (-2147483648) [] = some bs ∧
        Unpack bs = some ⟨-2147483648, none, []⟩) ∧
    (-2147483648 ≤ (-1 : Int) ∧ (-1 : Int) ≤ 2147483647 ∧
      ∃ bs, Pack (-1) [] = some bs ∧ Unpack bs = some ⟨-1, none, []⟩) :=
  ⟨⟨by decide, by decide, claim_C1_roundtrip 0 (by decide) (by decide)⟩,
   ⟨by decide, by decide, claim_C1_roundtrip 2147483647 (by decide) (by decide)⟩,
   ⟨by decide, by decide, claim_C1_roundtrip (-2147483648) (by decide) (by decide)⟩,
   ⟨by decide, by decide, claim_C1_roundtrip (-1) (by decide) (by decide)⟩⟩

/-- C5: `Unpack()` on an empty buffer returns the `NoDataToUnpack` error,
value 0, and leaves the buffer unchanged (still empty). -/
theorem claim_C5_unpack_empty :
    Unpack [] = some ⟨0, some .noDataToUnpack, []⟩ := rfl

/-- C6: packing any value outside the signed 32-bit range is a panic
(modelled `none`): no bytes are returned or appended, for any buffer. -/
theorem claim_C6_pack_out_of_range (v : Int) (buf : List Nat)
    (h : v < -2147483648 ∨ 2147483647 < v) :
    Pack v buf = none := by
  simp [Pack, h]

/-- Witness for C6 at v = 2147483648 and v = −2147483649. -/
theorem claim_C6_pack_out_of_range_witness :
    ((2147483648 : Int) < -2147483648 ∨ (2147483647 : Int) < 2147483648) ∧
    Pack 2147483648 [] = none ∧
    ((-2147483649 : Int) < -2147483648 ∨ (2147483647 : Int) < -2147483649) ∧
    Pack (-2147483649) [37] = none :=
  ⟨by decide, claim_C6_pack_out_of_range 2147483648 [] (by decide),
   by decide, claim_C6_pack_out_of_range (-2147483649) [37] (by decide)⟩

/-- C7: packing v1 then v2 into the same buffer appends only (the first
value's bytes are untouched by the second `Pack`), and unpacking twice yields
v1 then v2, leaving the buffer empty. -/
theorem claim_C7_two_values (v1 v2 : Int)
    (h1 : -2147483648 ≤ v1) (h2 : v1 ≤ 2147483647)
    (h3 : -2147483648 ≤ v2) (h4 : v2 ≤ 2147483647) :
    ∃ b1 b2, Pack v1 [] = some b1 ∧ Pack v2 b1 = some (b1 ++ b2) ∧
      Unpack (b1 ++ b2) = some ⟨v1, none, b2⟩ ∧ Unpack b2 = some ⟨v2, none, []⟩ := by
  obtain ⟨d2, hpb2, hu2⟩ := packBytes_unpack v2 h3 h4 []
  obtain ⟨d1, hpb1, hu1⟩ := packBytes_unpack v1 h1 h2 d2
  refine ⟨d1, d2, ?_, ?_, hu1, by simpa using hu2⟩
  · simp [Pack, hpb1]
    omega
  · simp [Pack, hpb2]
    omega

/-- Witness for C7 at v1 = 1000000, v2 = −77. -/
theorem claim_C7_two_values_witness :
    (-2147483648 ≤ (1000000 : Int) ∧ (1000000 : Int) ≤ 2147483647 ∧
     -2147483648 ≤ (-77 : Int) ∧ (-77 : Int) ≤ 2147483647) ∧
    (∃ b1 b2, Pack 1000000 [] = some b1 ∧ Pack (-77) b1 = some (b1 ++ b2) ∧
      Unpack (b1 ++ b2) = some ⟨1000000, none, b2⟩ ∧
      Unpack b2 = some ⟨-77, none, []⟩) :=
  ⟨⟨by decide, by decide, by decide, by decide⟩,
   claim_C7_two_values 1000000 (-77) (by decide) (by decide) (by decide) (by decide)⟩

/-- Counterexample to C10 as stated: on the buffer `[0x00, 0x80]` `Unpack`
stays in bounds (the first byte has no continuation flag, so the decoder never
examines the second byte), even though the second byte — among the first four —
has its continuation flag set and is not followed by another byte. -/
theorem claim_C10_counterexample :
    Unpack [0, 128] ≠ none ∧ ¬ claimedInBounds [0, 128] := by
  constructor
  · decide
  · intro h
    have h1 := h 1 (by norm_num [maxBytesInVarInt]) (by norm_num) (by norm_num)
    simp at h1

/-- C10 (amended): `Unpack` on the single byte `0x80` (continuation flag set,
no following byte) accesses an index past the end of the buffer — a panic,
not a returned error; and in general `Unpack` stays in bounds exactly when
every byte in the initial run of continuation-flagged bytes (the bytes it
examines, capped at the first four) is followed by another byte. -/
theorem claim_C10_unpack_oob :
    Unpack [128] = none ∧
    ∀ data : List Nat, Unpack data ≠ none ↔ chainInBounds data := by
  refine ⟨rfl, ?_⟩
  intro data
  cases data with
  | nil =>
    constructor
    · intro _ j hj hant
      have h0 := (hant 0 (by omega)).1
      simp at h0
    · intro _ hnone
      simp [Unpack] at hnone
  | cons b0 rest =>
    have hmap : Unpack (b0 :: rest) = none ↔
        unpackExt (maxBytesInVarInt - 1) 0 b0 (b0 &&& 63) rest = none := by
      simp [Unpack]
    constructor
    · intro hne
      have hfalse : contOverrun (maxBytesInVarInt - 1) b0 rest = false := by
        cases hb : contOverrun (maxBytesInVarInt - 1) b0 rest
        · rfl
        · exact absurd (hmap.mpr
            ((unpackExt_none_iff (maxBytesInVarInt - 1) 0 b0 (b0 &&& 63) rest).mpr hb))
            hne
      exact fun j hj hant =>
        (contOverrun_false_iff (maxBytesInVarInt - 1) b0 rest).mp hfalse j hj hant
    · intro hchain hnone
      have ht : contOverrun (maxBytesInVarInt - 1) b0 rest = true :=
        (unpackExt_none_iff (maxBytesInVarInt - 1) 0 b0 (b0 &&& 63) rest).mp
          (hmap.mp hnone)
      have hf : contOverrun (maxBytesInVarInt - 1) b0 rest = false :=
        (contOverrun_false_iff (maxBytesInVarInt - 1) b0 rest).mpr hchain
      rw [ht] at hf
      simp at hf

example : Pack 0 [] = some [0] := by decide

end Compression

namespace Browser

/-- Modelled from the spec: the protocol constants consumed by `MatchResponse`
(minimum header length, fixed token-response size, token-prefix length, and
the three literal packet signatures) are configuration that lives outside the
provided source files (spec §6 lists them at the interface boundary); they
are taken as parameters here. -/
structure ProtocolConsts where
  minPrefixLength : Nat
  tokenResponseSize : Nat
  tokenPrefixSize : Nat
  sendServerListRaw : List Nat
  sendServerCountRaw : List Nat
  sendInfoRaw : List Nat
  deriving DecidableEq, Repr

/-- The two rejection errors of `MatchResponse` (client.go lines 197, 209). -/
inductive MatchError where
  | invalidHeaderLength
  | invalidResponseMessage
  deriving DecidableEq, Repr

/-- `bytes.Equal(sig, msg[a : a+len(sig)])` as used by `MatchResponse`
(client.go lines 202-207): compare the signature against the slice of `msg`
of the signature's length starting at offset `a`. -/
def sliceEq (msg : List Nat) (a : Nat) (sig : List Nat) : Bool :=
  decide ((msg.drop a).take sig.length = sig)

/-- `MatchResponse` (client.go lines 195-210): reject a buffer shorter than
`minPrefixLength`, classify a buffer of exactly `tokenResponseSize` bytes as
"token" regardless of content, then match the three literal signatures at
offset `tokenPrefixSize` in order, else reject as invalid. -/
def MatchResponse (c : ProtocolConsts) (msg : List Nat) : Except MatchError String :=
  if msg.length < c.minPrefixLength then .error .invalidHeaderLength
  else if msg.length = c.tokenResponseSize then .ok "token"
  else if sliceEq msg c.tokenPrefixSize c.sendServerListRaw then .ok "serverlist"
  else if sliceEq msg c.tokenPrefixSize c.sendServerCountRaw then .ok "servercount"
  else if sliceEq msg c.tokenPrefixSize c.sendInfoRaw then .ok "serverinfo"
  else .error .invalidResponseMessage

/-- Matching one signature slice excludes matching a different signature of
the same length at the same offset. -/
theorem sliceEq_excl {msg : List Nat} {a : Nat} {s1 s2 : List Nat}
    (hlen : s1.length = s2.length) (hne : s1 ≠ s2)
    (h : sliceEq msg a s2 = true) : sliceEq msg a s1 = false := by
  simp only [sliceEq, decide_eq_true_eq] at h
  simp only [sliceEq, decide_eq_false_iff_not]
  intro h1
  rw [hlen] at h1
  exact hne (h1.symm.trans h)

/-- C3: `MatchResponse` applies its rules in the fixed order: header-too-short
rejection first (even for a buffer that would match a signature), then the
token-size rule regardless of content, then the three signatures in order
(serverlist, servercount, serverinfo), else invalid-response rejection.  The
hypotheses say the three signatures have equal length and are pairwise
distinct, which holds for the literal signatures of the protocol. -/
theorem claim_C3_match_order (c : ProtocolConsts)
    (hlen1 : c.sendServerListRaw.length = c.sendServerCountRaw.length)
    (hlen2 : c.sendServerListRaw.length = c.sendInfoRaw.length)
    (hne1 : c.sendServerListRaw ≠ c.sendServerCountRaw)
    (hne2 : c.sendServerListRaw ≠ c.sendInfoRaw)
    (hne3 : c.sendServerCountRaw ≠ c.sendInfoRaw)
    (msg : List Nat) :
    (msg.length < c.minPrefixLength →
      MatchResponse c msg = .error .invalidHeaderLength) ∧
    (c.minPrefixLength ≤ msg.length → msg.length = c.tokenResponseSize →
      MatchResponse c msg = .ok "token") ∧
    (c.minPrefixLength ≤ msg.length → msg.length ≠ c.tokenResponseSize →
      sliceEq msg c.tokenPrefixSize c.sendServerListRaw = true →
      MatchResponse c msg = .ok "serverlist") ∧
    (c.minPrefixLength ≤ msg.length → msg.length ≠ c.tokenResponseSize →
      sliceEq msg c.tokenPrefixSize c.sendServerCountRaw = true →
      MatchResponse c msg = .ok "servercount") ∧
    (c.minPrefixLength ≤ msg.length → msg.length ≠ c.tokenResponseSize →
      sliceEq msg c.tokenPrefixSize c.sendInfoRaw = true →
      MatchResponse c msg = .ok "serverinfo") ∧
    (c.minPrefixLength ≤ msg.length → msg.length ≠ c.tokenResponseSize →
      sliceEq msg c.tokenPrefixSize c.sendServerListRaw = false →
      sliceEq msg c.tokenPrefixSize c.sendServerCountRaw = false →
      sliceEq msg c.tokenPrefixSize c.sendInfoRaw = false →
      MatchResponse c msg = .error .invalidResponseMessage) := by
  refine ⟨?_, ?_, ?_, ?_, ?_, ?_⟩
  · intro h
    simp [MatchResponse, h]
  · intro h1 h2
    simp [MatchResponse, h2]
    omega
  · intro h1 h2 h3
    simp [MatchResponse, h2, h3]
    omega
  · intro h1 h2 h3
    have hx : sliceEq msg c.tokenPrefixSize c.sendServerListRaw = false :=
      sliceEq_excl hlen1 hne1 h3
    simp [MatchResponse, h2, h3, hx]
    omega
  · intro h1 h2 h3
    have hx1 : sliceEq msg c.tokenPrefixSize c.sendServerListRaw = false :=
      sliceEq_excl hlen2 hne2 h3
    have hx2 : sliceEq msg c.tokenPrefixSize c.sendServerCountRaw = false :=
      sliceEq_excl (hlen1 ▸ hlen2) hne3 h3
    simp [MatchResponse, h2, h3, hx1, hx2]
    omega
  · intro h1 h2 h3 h4 h5
    simp [MatchResponse, h2, h3, h4, h5]
    omega

/-- Witness for C3 at a concrete constant set and buffers hitting each rule. -/
theorem claim_C3_match_order_witness :
    (([10] : List Nat).length = ([20] : List Nat).length ∧
     ([10] : List Nat).length = ([30] : List Nat).length ∧
     ([10] : List Nat) ≠ [20] ∧ ([10] : List Nat) ≠ [30] ∧
     ([20] : List Nat) ≠ [30]) ∧
    ((([0, 10, 0, 0] : List Nat).length < 2 →
      MatchResponse ⟨2, 3, 1, [10], [20], [30]⟩ [0, 10, 0, 0] =
        .error .invalidHeaderLength) ∧
    (2 ≤ ([0, 10, 0, 0] : List Nat).length →
      ([0, 10, 0, 0] : List Nat).length = 3 →
      MatchResponse ⟨2, 3, 1, [10], [20], [30]⟩ [0, 10, 0, 0] = .ok "token") ∧
    (2 ≤ ([0, 10, 0, 0] : List Nat).length →
      ([0, 10, 0, 0] : List Nat).length ≠ 3 →
      sliceEq [0, 10, 0, 0] 1 [10] = true →
      MatchResponse ⟨2, 3, 1, [10], [20], [30]⟩ [0, 10, 0, 0] = .ok "serverlist") ∧
    (2 ≤ ([0, 10, 0, 0] : List Nat).length →
      ([0, 10, 0, 0] : List Nat).length ≠ 3 →
      sliceEq [0, 10, 0, 0] 1 [20] = true →
      MatchResponse ⟨2, 3, 1, [10], [20], [30]⟩ [0, 10, 0, 0] = .ok "servercount") ∧
    (2 ≤ ([0, 10, 0, 0] : List Nat).length →
      ([0, 10, 0, 0] : List Nat).length ≠ 3 →
      sliceEq [0, 10, 0, 0] 1 [30] = true →
      MatchResponse ⟨2, 3, 1, [10], [20], [30]⟩ [0, 10, 0, 0] = .ok "serverinfo") ∧
    (2 ≤ ([0, 10, 0, 0] : List Nat).length →
      ([0, 10, 0, 0] : List Nat).length ≠ 3 →
      sliceEq [0, 10, 0, 0] 1 [10] = false →
      sliceEq [0, 10, 0, 0] 1 [20] = false →
      sliceEq [0, 10, 0, 0] 1 [30] = false →
      MatchResponse ⟨2, 3, 1, [10], [20], [30]⟩ [0, 10, 0, 0] =
        .error .invalidResponseMessage)) :=
  ⟨⟨by decide, by decide, by decide, by decide, by decide⟩,
   claim_C3_match_order ⟨2, 3, 1, [10], [20], [30]⟩
     (by decide) (by decide) (by decide) (by decide) (by decide) [0, 10, 0, 0]⟩

/-- The accumulated `writeBurst` float of `FetchToken` (client.go lines 49 and
82): starts at 1.0 and is multiplied by 1.2 after each failed iteration.  The
float is idealised as a rational: 1.2 is exactly 6/5 here, while the float64
value merely lies strictly between 1 and 2; the theorems below only depend on
that. -/
def writeBurstAt : Nat → ℚ
  | 0 => 1
  | k + 1 => writeBurstAt k * 1.2

/-- The send-burst loop of `FetchToken` (client.go lines 62-67):
`for i := 0.0; i < writeBurst; i += 1.0` sends one token request per
iteration; the counter takes the exact values 0, 1, 2, ..., which are exact
in float64.  Returns the number of requests sent, counting from `i = n`. -/
def tokenBurstLoop (wb : ℚ) (n : Nat) : Nat :=
  if (n : ℚ) < wb then tokenBurstLoop wb (n + 1) + 1 else 0
termination_by (⌈wb⌉ - n).toNat
decreasing_by
  have h1 : (n : ℤ) < ⌈wb⌉ :=
    Int.lt_ceil.mpr (by exact_mod_cast (by assumption : (n : ℚ) < wb))
  omega

/-- The burst loop counts exactly the integers in `[n, wb)`. -/
theorem tokenBurstLoop_eq (wb : ℚ) (n : Nat) :
    tokenBurstLoop wb n = (⌈wb⌉ - n).toNat := by
  suffices H : ∀ (fuel : Nat) (m : Nat), (⌈wb⌉ - (m : Int)).toNat ≤ fuel →
      tokenBurstLoop wb m = (⌈wb⌉ - (m : Int)).toNat by
    exact H ((⌈wb⌉ - n).toNat) n le_rfl
  intro fuel
  induction fuel with
  | zero =>
    intro m hm
    have hceil : ⌈wb⌉ ≤ (m : ℤ) := by omega
    have hwb : wb ≤ (m : ℚ) := by exact_mod_cast Int.ceil_le.mp hceil
    unfold tokenBurstLoop
    rw [if_neg (not_lt.mpr hwb)]
    omega
  | succ fuel ih =>
    intro m hm
    by_cases h : (m : ℚ) < wb
    · have hceil : (m : ℤ) < ⌈wb⌉ := Int.lt_ceil.mpr (by exact_mod_cast h)
      unfold tokenBurstLoop
      rw [if_pos h, ih (m + 1) (by omega)]
      omega
    · unfold tokenBurstLoop
      rw [if_neg h]
      have hceil : ⌈wb⌉ ≤ (m : ℤ) := Int.ceil_le.mpr (by exact_mod_cast not_lt.mp h)
      omega

/-- Counterexample to C2 as stated: on the second iteration the accumulated
burst value is 1.2 (exactly 6/5 in the rational idealisation; the float64
value likewise lies strictly between 1 and 2), its floor is 1, yet the send
loop runs twice — both `i = 0` and `i = 1` satisfy `i < 1.2`. -/
theorem claim_C2_counterexample :
    writeBurstAt 1 = 6/5 ∧ ⌊writeBurstAt 1⌋ = 1 ∧
    tokenBurstLoop (writeBurstAt 1) 0 = 2 := by
  have h1 : writeBurstAt 1 = 6/5 := by norm_num [writeBurstAt]
  refine ⟨h1, ?_, ?_⟩
  · rw [h1]
    norm_num [Int.floor_eq_iff]
  · rw [h1]
    unfold tokenBurstLoop
    rw [if_pos (by norm_num)]
    unfold tokenBurstLoop
    rw [if_pos (by norm_num)]
    unfold tokenBurstLoop
    rw [if_neg (by norm_num)]

/-- C2 (amended): on every iteration of the `FetchToken` retry loop the
number of duplicate token-request packets sent is the ceiling — not the
floor — of the accumulated burst value (which starts at 1 and is multiplied
by 1.2 after each failed iteration); any accumulated value strictly between
1 and 2, such as the second iteration's 1.2, sends exactly 2 requests. -/
theorem claim_C2_burst_is_ceiling :
    (∀ k, tokenBurstLoop (writeBurstAt k) 0 = (⌈writeBurstAt k⌉).toNat) ∧
    (∀ wb : ℚ, 1 < wb → wb < 2 → tokenBurstLoop wb 0 = 2) ∧
    tokenBurstLoop (writeBurstAt 1) 0 = 2 := by
  have hgen : ∀ wb : ℚ, tokenBurstLoop wb 0 = (⌈wb⌉).toNat := fun wb => by
    simpa using tokenBurstLoop_eq wb 0
  refine ⟨fun k => hgen _, fun wb h1 h2 => ?_, ?_⟩
  · rw [hgen]
    have hc : ⌈wb⌉ = 2 := by
      rw [Int.ceil_eq_iff]
      constructor
      · push_cast
        linarith
      · push_cast
        linarith
    rw [hc]
    rfl
  · rw [hgen, show writeBurstAt 1 = 6/5 from by norm_num [writeBurstAt],
      show ⌈(6/5 : ℚ)⌉ = 2 from by norm_num [Int.ceil_eq_iff]]
    rfl

/-- Witness for the amended C2 at the in-between value 3/2. -/
theorem claim_C2_burst_is_ceiling_witness :
    (1 < (3/2 : ℚ) ∧ (3/2 : ℚ) < 2) ∧ tokenBurstLoop (3/2) 0 = 2 :=
  ⟨⟨by norm_num, by norm_num⟩,
   claim_C2_burst_is_ceiling.2.1 (3/2) (by norm_num) (by norm_num)⟩

/-- Modelled from the spec: the minimum timeout floor is a package constant
outside the provided sources; the doc comment on `FetchToken` (client.go line
40) fixes it at 35 ms, i.e. 35000000 ns as a `time.Duration`. -/
def minTimeout : Int := 35000000

/-- The timeout floor applied on entry to `FetchToken` and `FetchWithToken`
(client.go lines 42-44 and 144-146). -/
def effectiveTimeout (timeout : Int) : Int :=
  if timeout < minTimeout then minTimeout else timeout

/-- The timing/transport environment of one retry loop, abstracting the wall
clock and the transport: `elapsedTop k` is `time.Since(begin)` sampled at the
top of iteration k (client.go line 52), `elapsedRetry k` the sample after the
failed receive (line 76), and `recvOk k` tells whether the receive of
iteration k succeeds.  Request writes are taken to succeed: a failed write
aborts the whole exchange and is outside these claims. -/
structure RetryEnv where
  elapsedTop : Nat → Int
  elapsedRetry : Nat → Int
  recvOk : Nat → Bool

/-- How the retry loop exits: `timeoutErr` models `err = ErrTimeout`
(client.go line 57), `success` a received response (line 72). -/
inductive LoopOutcome where
  | timeoutErr
  | success
  deriving DecidableEq, Repr

/-- The per-attempt read deadline along a run in which every receive fails:
`minTimeout` initially (client.go line 48), then after each failed iteration
either exactly the remaining budget (when that remainder is ≤ the current
value) or double the current value (lines 76-82; lines 178-184 are
identical). -/
def ctTrace (env : RetryEnv) (timeout : Int) : Nat → Int
  | 0 => minTimeout
  | k + 1 =>
    if timeout - env.elapsedRetry k ≤ ctTrace env timeout k
    then timeout - env.elapsedRetry k
    else ctTrace env timeout k * 2

/-- The retry loop of `FetchToken` (client.go lines 51-83), from iteration `k`
with state `(currentTimeout, writeBurst)`: fail with `ErrTimeout` when the
budget is exhausted (lines 55-59); otherwise send the burst, try to receive
(line 70), and on failure update the per-attempt timeout (lines 76-81) and
the burst (line 82) and continue.  `none` means the loop is still running
after `fuel` iterations. -/
def fetchTokenRun (env : RetryEnv) (timeout : Int) :
    Nat → Nat → Int → ℚ → Option (Nat × LoopOutcome)
  | 0, _, _, _ => none
  | fuel + 1, k, currentTimeout, writeBurst =>
    if timeout - env.elapsedTop k ≤ 0 then some (k, .timeoutErr)
    else if env.recvOk k then some (k, .success)
    else
      fetchTokenRun env timeout fuel (k + 1)
        (if timeout - env.elapsedRetry k ≤ currentTimeout
         then timeout - env.elapsedRetry k else currentTimeout * 2)
        (writeBurst * 1.2)

/-- `FetchToken` (client.go lines 41-84): apply the timeout floor and run the
retry loop from iteration 0 with `currentTimeout = minTimeout` (line 48) and
`writeBurst = 1.0` (line 49). -/
def FetchToken (env : RetryEnv) (timeout : Int) (fuel : Nat) :
    Option (Nat × LoopOutcome) :=
  fetchTokenRun env (effectiveTimeout timeout) fuel 0 minTimeout 1

/-- The retry loop of `FetchWithToken` (client.go lines 153-185): control flow
identical to `fetchTokenRun`, with an integer burst that doubles per failed
iteration (line 184). -/
def fetchWithTokenRun (env : RetryEnv) (timeout : Int) :
    Nat → Nat → Int → Int → Option (Nat × LoopOutcome)
  | 0, _, _, _ => none
  | fuel + 1, k, currentTimeout, writeBurst =>
    if timeout - env.elapsedTop k ≤ 0 then some (k, .timeoutErr)
    else if env.recvOk k then some (k, .success)
    else
      fetchWithTokenRun env timeout fuel (k + 1)
        (if timeout - env.elapsedRetry k ≤ currentTimeout
         then timeout - env.elapsedRetry k else currentTimeout * 2)
        (writeBurst * 2)

/-- `FetchWithToken` (client.go lines 143-186): apply the timeout floor and
run the typed retry loop from iteration 0 with `currentTimeout = minTimeout`
and `writeBurst = 1` (lines 150-151). -/
def FetchWithToken (env : RetryEnv) (timeout : Int) (fuel : Nat) :
    Option (Nat × LoopOutcome) :=
  fetchWithTokenRun env (effectiveTimeout timeout) fuel 0 minTimeout 1

/-- C4: in both retry loops, after a failed attempt at iteration k that does
not exhaust the budget, the loop continues into iteration k+1 with the
per-attempt timeout set to exactly the remaining budget when the remainder is
≤ the current per-attempt timeout, and to double the current per-attempt
timeout otherwise. -/
theorem claim_C4_backoff (env : RetryEnv) (timeout ct : Int) (wb : ℚ)
    (wbi : Int) (fuel k : Nat)
    (htop : 0 < timeout - env.elapsedTop k)
    (hfail : env.recvOk k = false) :
    (timeout - env.elapsedRetry k ≤ ct →
      fetchTokenRun env timeout (fuel + 1) k ct wb =
        fetchTokenRun env timeout fuel (k + 1) (timeout - env.elapsedRetry k)
          (wb * 1.2) ∧
      fetchWithTokenRun env timeout (fuel + 1) k ct wbi =
        fetchWithTokenRun env timeout fuel (k + 1) (timeout - env.elapsedRetry k)
          (wbi * 2)) ∧
    (ct < timeout - env.elapsedRetry k →
      fetchTokenRun env timeout (fuel + 1) k ct wb =
        fetchTokenRun env timeout fuel (k + 1) (ct * 2) (wb * 1.2) ∧
      fetchWithTokenRun env timeout (fuel + 1) k ct wbi =
        fetchWithTokenRun env timeout fuel (k + 1) (ct * 2) (wbi * 2)) := by
  constructor
  · intro h
    constructor
    · simp only [fetchTokenRun, hfail]
      rw [if_neg (by omega), if_pos h]
      simp
    · simp only [fetchWithTokenRun, hfail]
      rw [if_neg (by omega), if_pos h]
      simp
  · intro h
    constructor
    · simp only [fetchTokenRun, hfail]
      rw [if_neg (show ¬ timeout - env.elapsedTop k ≤ 0 by omega),
        if_neg (show ¬ timeout - env.elapsedRetry k ≤ ct by omega)]
      simp
    · simp only [fetchWithTokenRun, hfail]
      rw [if_neg (show ¬ timeout - env.elapsedTop k ≤ 0 by omega),
        if_neg (show ¬ timeout - env.elapsedRetry k ≤ ct by omega)]
      simp

/-- Witness for C4 at a concrete environment with remaining budget 60 and
current per-attempt timeout 70 (shrink branch applies). -/
theorem claim_C4_backoff_witness :
    (0 < (100 : Int) -
      (RetryEnv.mk (fun _ => 0) (fun _ => 40) (fun _ => false)).elapsedTop 0) ∧
    ((RetryEnv.mk (fun _ => 0) (fun _ => 40) (fun _ => false)).recvOk 0 = false) ∧
    (((100 : Int) -
        (RetryEnv.mk (fun _ => 0) (fun _ => 40) (fun _ => false)).elapsedRetry 0 ≤ 70 →
      fetchTokenRun (RetryEnv.mk (fun _ => 0) (fun _ => 40) (fun _ => false))
          100 1 0 70 1 =
        fetchTokenRun (RetryEnv.mk (fun _ => 0) (fun _ => 40) (fun _ => false))
          100 0 1
          (100 - (RetryEnv.mk (fun _ => 0) (fun _ => 40) (fun _ => false)).elapsedRetry 0)
          (1 * 1.2) ∧
      fetchWithTokenRun (RetryEnv.mk (fun _ => 0) (fun _ => 40) (fun _ => false))
          100 1 0 70 1 =
        fetchWithTokenRun (RetryEnv.mk (fun _ => 0) (fun _ => 40) (fun _ => false))
          100 0 1
          (100 - (RetryEnv.mk (fun _ => 0) (fun _ => 40) (fun _ => false)).elapsedRetry 0)
          (1 * 2)) ∧
    ((70 : Int) <
        100 - (RetryEnv.mk (fun _ => 0) (fun _ => 40) (fun _ => false)).elapsedRetry 0 →
      fetchTokenRun (RetryEnv.mk (fun _ => 0) (fun _ => 40) (fun _ => false))
          100 1 0 70 1 =
        fetchTokenRun (RetryEnv.mk (fun _ => 0) (fun _ => 40) (fun _ => false))
          100 0 1 (70 * 2) (1 * 1.2) ∧
      fetchWithTokenRun (RetryEnv.mk (fun _ => 0) (fun _ => 40) (fun _ => false))
          100 1 0 70 1 =
        fetchWithTokenRun (RetryEnv.mk (fun _ => 0) (fun _ => 40) (fun _ => false))
          100 0 1 (70 * 2) (1 * 2))) :=
  ⟨by norm_num, rfl,
   claim_C4_backoff (RetryEnv.mk (fun _ => 0) (fun _ => 40) (fun _ => false))
     100 70 1 1 0 0 (by norm_num) rfl⟩

/-- With every receive failing, the `FetchToken` loop reaches the first
iteration whose budget check fails and exits there with `ErrTimeout`; the
per-attempt timeout threads along `ctTrace`. -/
theorem fetchTokenRun_succ (env : RetryEnv) (T : Int) (fuel k : Nat)
    (ct : Int) (wb : ℚ) :
    fetchTokenRun env T (fuel + 1) k ct wb =
      if T - env.elapsedTop k ≤ 0 then some (k, .timeoutErr)
      else if env.recvOk k then some (k, .success)
      else fetchTokenRun env T fuel (k + 1)
        (if T - env.elapsedRetry k ≤ ct then T - env.elapsedRetry k else ct * 2)
        (wb * 1.2) := rfl

theorem fetchWithTokenRun_succ (env : RetryEnv) (T : Int) (fuel k : Nat)
    (ct wb : Int) :
    fetchWithTokenRun env T (fuel + 1) k ct wb =
      if T - env.elapsedTop k ≤ 0 then some (k, .timeoutErr)
      else if env.recvOk k then some (k, .success)
      else fetchWithTokenRun env T fuel (k + 1)
        (if T - env.elapsedRetry k ≤ ct then T - env.elapsedRetry k else ct * 2)
        (wb * 2) := rfl

theorem fetchTokenRun_timeout (env : RetryEnv) (T : Int)
    (hfail : ∀ j, env.recvOk j = false) :
    ∀ (n k : Nat) (wb : ℚ),
      (∀ j, k ≤ j → j < k + n → 0 < T - env.elapsedTop j) →
      T - env.elapsedTop (k + n) ≤ 0 →
      fetchTokenRun env T (n + 1) k (ctTrace env T k) wb =
        some (k + n, .timeoutErr) := by
  intro n
  induction n with
  | zero =>
    intro k wb _ hle
    rw [fetchTokenRun_succ, if_pos (by simpa using hle)]
    simp
  | succ n ih =>
    intro k wb hlt hle
    rw [fetchTokenRun_succ,
      if_neg (show ¬ T - env.elapsedTop k ≤ 0 by
        have := hlt k (le_refl k) (by omega); omega),
      if_neg (show ¬ env.recvOk k = true by simp [hfail k])]
    have hstep : (if T - env.elapsedRetry k ≤ ctTrace env T k
        then T - env.elapsedRetry k else ctTrace env T k * 2) =
        ctTrace env T (k + 1) := rfl
    have hrec := ih (k + 1) (wb * 1.2)
      (fun j hj1 hj2 => hlt j (by omega) (by omega))
      (by rw [show k + 1 + n = k + (n + 1) by omega]; exact hle)
    rw [show k + 1 + n = k + (n + 1) by omega] at hrec
    rw [hstep, hrec]

/-- `fetchWithTokenRun` version of `fetchTokenRun_timeout`: identical control
flow, integer burst. -/
theorem fetchWithTokenRun_timeout (env : RetryEnv) (T : Int)
    (hfail : ∀ j, env.recvOk j = false) :
    ∀ (n k : Nat) (wb : Int),
      (∀ j, k ≤ j → j < k + n → 0 < T - env.elapsedTop j) →
      T - env.elapsedTop (k + n) ≤ 0 →
      fetchWithTokenRun env T (n + 1) k (ctTrace env T k) wb =
        some (k + n, .timeoutErr) := by
  intro n
  induction n with
  | zero =>
    intro k wb _ hle
    rw [fetchWithTokenRun_succ, if_pos (by simpa using hle)]
    simp
  | succ n ih =>
    intro k wb hlt hle
    rw [fetchWithTokenRun_succ,
      if_neg (show ¬ T - env.elapsedTop k ≤ 0 by
        have := hlt k (le_refl k) (by omega); omega),
      if_neg (show ¬ env.recvOk k = true by simp [hfail k])]
    have hstep : (if T - env.elapsedRetry k ≤ ctTrace env T k
        then T - env.elapsedRetry k else ctTrace env T k * 2) =
        ctTrace env T (k + 1) := rfl
    have hrec := ih (k + 1) (wb * 2)
      (fun j hj1 hj2 => hlt j (by omega) (by omega))
      (by rw [show k + 1 + n = k + (n + 1) by omega]; exact hle)
    rw [show k + 1 + n = k + (n + 1) by omega] at hrec
    rw [hstep, hrec]

/-- C9: an exchange whose transport never delivers a valid response
terminates: both `FetchToken` and `FetchWithToken` return `ErrTimeout` at the
first iteration whose elapsed time reaches the (floored) budget, so the exit
happens strictly before budget-plus-one-attempt: the elapsed time at exit is
below the configured timeout plus the final attempt's read deadline
(`ctTrace` at the previous iteration, a negative deadline acting as zero)
plus the transport slack.  Hypotheses: every receive fails, the clock starts
at zero and grows without bound, and each iteration takes at most its read
deadline plus `slack`. -/
theorem claim_C9_retry_timeout (env : RetryEnv) (timeout slack : Int)
    (hfail : ∀ k, env.recvOk k = false)
    (hstart : env.elapsedTop 0 = 0)
    (hunb : ∀ B : Int, ∃ k, B < env.elapsedTop k)
    (hdur : ∀ k, env.elapsedTop (k + 1) ≤
      env.elapsedTop k + max (ctTrace env (effectiveTimeout timeout) k) 0 + slack) :
    ∃ fuel k, 0 < k ∧
      FetchToken env timeout fuel = some (k, .timeoutErr) ∧
      FetchWithToken env timeout fuel = some (k, .timeoutErr) ∧
      (∀ j, j < k → env.elapsedTop j < effectiveTimeout timeout) ∧
      env.elapsedTop k < effectiveTimeout timeout +
        max (ctTrace env (effectiveTimeout timeout) (k - 1)) 0 + slack := by
  have hTpos : 0 < effectiveTimeout timeout := by
    simp only [effectiveTimeout, minTimeout]
    split <;> omega
  have hex : ∃ k, effectiveTimeout timeout - env.elapsedTop k ≤ 0 := by
    obtain ⟨k, hk⟩ := hunb (effectiveTimeout timeout)
    exact ⟨k, by omega⟩
  refine ⟨Nat.find hex + 1, Nat.find hex, ?_, ?_, ?_, ?_, ?_⟩
  case _ =>
    rcases Nat.eq_zero_or_pos (Nat.find hex) with h0 | hpos
    · exfalso
      have hspec := Nat.find_spec hex
      rw [h0, hstart] at hspec
      omega
    · exact hpos
  case _ =>
    unfold FetchToken
    rw [show (minTimeout : Int) = ctTrace env (effectiveTimeout timeout) 0 from rfl]
    have h := fetchTokenRun_timeout env (effectiveTimeout timeout) hfail
      (Nat.find hex) 0 1
      (fun j _ hj => by
        have := Nat.find_min hex (by omega : j < Nat.find hex)
        omega)
      (by simpa using Nat.find_spec hex)
    simpa using h
  case _ =>
    unfold FetchWithToken
    rw [show (minTimeout : Int) = ctTrace env (effectiveTimeout timeout) 0 from rfl]
    have h := fetchWithTokenRun_timeout env (effectiveTimeout timeout) hfail
      (Nat.find hex) 0 1
      (fun j _ hj => by
        have := Nat.find_min hex (by omega : j < Nat.find hex)
        omega)
      (by simpa using Nat.find_spec hex)
    simpa using h
  case _ =>
    intro j hj
    have := Nat.find_min hex hj
    omega
  case _ =>
    have hpos : 0 < Nat.find hex := by
      rcases Nat.eq_zero_or_pos (Nat.find hex) with h0 | hpos
      · exfalso
        have hspec := Nat.find_spec hex
        rw [h0, hstart] at hspec
        omega
      · exact hpos
    have hd := hdur (Nat.find hex - 1)
    rw [show Nat.find hex - 1 + 1 = Nat.find hex by omega] at hd
    have hlast := Nat.find_min hex (show Nat.find hex - 1 < Nat.find hex by omega)
    omega

/-- Witness for C9: a transport that always fails, a clock advancing 40 ms
per iteration, a 50 ms budget and a 40 ms slack. -/
theorem claim_C9_retry_timeout_witness :
    ∃ fuel k, 0 < k ∧
      FetchToken (RetryEnv.mk (fun j => 40000000 * (j : Int))
          (fun j => 40000000 * (j : Int) + 1000000) (fun _ => false))
          50000000 fuel = some (k, .timeoutErr) ∧
      FetchWithToken (RetryEnv.mk (fun j => 40000000 * (j : Int))
          (fun j => 40000000 * (j : Int) + 1000000) (fun _ => false))
          50000000 fuel = some (k, .timeoutErr) ∧
      (∀ j, j < k →
        (RetryEnv.mk (fun j => 40000000 * (j : Int))
          (fun j => 40000000 * (j : Int) + 1000000) (fun _ => false)).elapsedTop j <
        effectiveTimeout 50000000) ∧
      (RetryEnv.mk (fun j => 40000000 * (j : Int))
          (fun j => 40000000 * (j : Int) + 1000000) (fun _ => false)).elapsedTop k <
        effectiveTimeout 50000000 +
        max (ctTrace (RetryEnv.mk (fun j => 40000000 * (j : Int))
          (fun j => 40000000 * (j : Int) + 1000000) (fun _ => false))
          (effectiveTimeout 50000000) (k - 1)) 0 + 40000000 :=
  claim_C9_retry_timeout
    (RetryEnv.mk (fun j => 40000000 * (j : Int))
      (fun j => 40000000 * (j : Int) + 1000000) (fun _ => false))
    50000000 40000000
    (fun _ => rfl)
    (by norm_num)
    (fun B => ⟨B.toNat + 1, by push_cast; omega⟩)
    (fun k => by
      have h := le_max_right
        (ctTrace (RetryEnv.mk (fun j => 40000000 * (j : Int))
          (fun j => 40000000 * (j : Int) + 1000000) (fun _ => false))
          (effectiveTimeout 50000000) k) 0
      push_cast
      omega)

/-- Modelled from the spec: the external collaborators of the fan-out
orchestrator — UDP dialing, the composite `Fetch` exchange over a freshly
dialed connection, and the packet parsers (spec §6) — abstracted as
per-address outcome oracles; `none` at a stage is that stage's error.  The
goroutine fan-out is modelled sequentially: the tasks share only the
concurrent map, whose inserts commute and which is read only after the
wait-group barrier, so the set of collected records is
interleaving-independent. -/
structure FanoutEnv (Addr Bytes Info : Type) where
  dialOk : Addr → Bool
  fetchServerList : Addr → Option Bytes
  parseServerList : Bytes → Option (List Addr)
  fetchServerInfo : Addr → Option Bytes
  parseServerInfo : Bytes → Addr → Option Info

/-- `fetchServerInfoFromServerAddress` (client.go lines 343-367): dial the
game server, run the composite exchange for "serverinfo", parse; on any
failure the task returns without contributing (a bare `return` on every error
path), otherwise its record is inserted into the shared map (`cm.Add`). -/
def fetchServerInfoFromServerAddress {Addr Bytes Info : Type}
    (env : FanoutEnv Addr Bytes Info) (srv : Addr) : Option Info :=
  if env.dialOk srv then
    match env.fetchServerInfo srv with
    | none => none
    | some resp => env.parseServerInfo resp srv
  else none

/-- `fetchServersFromMasterServerAddress` (client.go lines 313-341): dial the
master server, fetch and parse its server list; on any failure the task
returns without contributing and without raising anything; otherwise it
spawns one per-server task per listed address and waits for all of them.  The
value is the list of records this task's per-server subtasks inserted. -/
def fetchServersFromMasterServerAddress {Addr Bytes Info : Type}
    (env : FanoutEnv Addr Bytes Info) (ms : Addr) : List Info :=
  if env.dialOk ms then
    match env.fetchServerList ms with
    | none => []
    | some resp =>
      match env.parseServerList resp with
      | none => []
      | some servers => servers.filterMap (fetchServerInfoFromServerAddress env)
  else []

/-- `ServerInfosWithTimeouts` (client.go lines 296-311): fan out one task per
master server, wait for all (`wg.Wait`), then read the collected records
(`cm.Values`).  The function has no error return; the result is the combined
contribution of all tasks. -/
def ServerInfosWithTimeouts {Addr Bytes Info : Type}
    (env : FanoutEnv Addr Bytes Info) (masters : List Addr) : List Info :=
  (masters.map (fetchServersFromMasterServerAddress env)).flatten

/-- C8: the fan-out never surfaces an error — a master task whose dial,
exchange or parse fails contributes the empty list; and injecting a failure
into one master server's exchange (environment `env'` differing from `env`
only at `ms`) leaves every other master's contribution unchanged and still
present in the overall result.  The side condition `hnotsrv` says the failed
master's address is not among the game servers reported by the healthy
masters. -/
theorem claim_C8_fanout_isolation {Addr Bytes Info : Type}
    (env env' : FanoutEnv Addr Bytes Info) (masters : List Addr) (ms : Addr)
    (hdial : ∀ a, a ≠ ms → env'.dialOk a = env.dialOk a)
    (hfetch : ∀ a, a ≠ ms → env'.fetchServerList a = env.fetchServerList a)
    (hinfo : env'.fetchServerInfo = env.fetchServerInfo)
    (hpinfo : env'.parseServerInfo = env.parseServerInfo)
    (hplist : env'.parseServerList = env.parseServerList)
    (hnotsrv : ∀ m, m ∈ masters → m ≠ ms → ∀ resp servers,
      env.fetchServerList m = some resp →
      env.parseServerList resp = some servers → ms ∉ servers) :
    ((env'.dialOk ms = false ∨ env'.fetchServerList ms = none ∨
      (∀ resp, env'.fetchServerList ms = some resp →
        env'.parseServerList resp = none)) →
      fetchServersFromMasterServerAddress env' ms = []) ∧
    (∀ m, m ∈ masters → m ≠ ms →
      fetchServersFromMasterServerAddress env' m =
        fetchServersFromMasterServerAddress env m) ∧
    (∀ m, m ∈ masters → m ≠ ms → ∀ info,
      info ∈ fetchServersFromMasterServerAddress env m →
      info ∈ ServerInfosWithTimeouts env' masters) := by
  have hcontrib : ∀ m, m ∈ masters → m ≠ ms →
      fetchServersFromMasterServerAddress env' m =
        fetchServersFromMasterServerAddress env m := by
    intro m hmem hne
    unfold fetchServersFromMasterServerAddress
    rw [hdial m hne, hfetch m hne, hplist]
    by_cases hdialm : env.dialOk m = true
    · rw [if_pos hdialm, if_pos hdialm]
      cases hresp : env.fetchServerList m with
      | none => rfl
      | some resp =>
        cases hsrv : env.parseServerList resp with
        | none => simp [hsrv]
        | some servers =>
          have hms : ms ∉ servers := hnotsrv m hmem hne resp servers hresp hsrv
          simp only [hsrv]
          refine List.filterMap_congr ?_
          intro s hs
          have hsne : s ≠ ms := fun h => hms (h ▸ hs)
          unfold fetchServerInfoFromServerAddress
          rw [hdial s hsne, hinfo, hpinfo]
    · rw [if_neg hdialm, if_neg hdialm]
  refine ⟨?_, hcontrib, ?_⟩
  · intro h
    unfold fetchServersFromMasterServerAddress
    rcases h with h | h | h
    · rw [h]
      simp
    · rw [h]
      cases env'.dialOk ms <;> simp
    · cases hresp : env'.fetchServerList ms with
      | none => cases env'.dialOk ms <;> simp [hresp]
      | some resp =>
        have hp := h resp hresp
        cases env'.dialOk ms <;> simp [hresp, hp]
  · intro m hmem hne info hinfo2
    unfold ServerInfosWithTimeouts
    rw [List.mem_flatten]
    refine ⟨fetchServersFromMasterServerAddress env' m, List.mem_map_of_mem _ hmem, ?_⟩
    rw [hcontrib m hmem hne]
    exact hinfo2

/-- Witness for C8: two master servers 1 and 2, each healthy under `env`, and
`env'` in which dialing master 1 fails; master 2 reports game server 12. -/
theorem claim_C8_fanout_isolation_witness :
    (((FanoutEnv.mk (fun a => decide (a ≠ 1)) (fun a => some a)
      (fun b => some [b + 10]) (fun s => some s)
      (fun b s => some (100 * s + b)) : FanoutEnv Nat Nat Nat).dialOk 1 = false ∨
      (FanoutEnv.mk (fun a => decide (a ≠ 1)) (fun a => some a)
      (fun b => some [b + 10]) (fun s => some s)
      (fun b s => some (100 * s + b)) : FanoutEnv Nat Nat Nat).fetchServerList 1 = none ∨
      (∀ resp, (FanoutEnv.mk (fun a => decide (a ≠ 1)) (fun a => some a)
      (fun b => some [b + 10]) (fun s => some s)
      (fun b s => some (100 * s + b)) : FanoutEnv Nat Nat Nat).fetchServerList 1 = some resp →
        (FanoutEnv.mk (fun a => decide (a ≠ 1)) (fun a => some a)
      (fun b => some [b + 10]) (fun s => some s)
      (fun b s => some (100 * s + b)) : FanoutEnv Nat Nat Nat).parseServerList resp = none)) →
      fetchServersFromMasterServerAddress
        (FanoutEnv.mk (fun a => decide (a ≠ 1)) (fun a => some a)
      (fun b => some [b + 10]) (fun s => some s)
      (fun b s => some (100 * s + b)) : FanoutEnv Nat Nat Nat) 1 = []) ∧
    (∀ m, m ∈ [1, 2] → m ≠ 1 →
      fetchServersFromMasterServerAddress
        (FanoutEnv.mk (fun a => decide (a ≠ 1)) (fun a => some a)
      (fun b => some [b + 10]) (fun s => some s)
      (fun b s => some (100 * s + b)) : FanoutEnv Nat Nat Nat) m =
      fetchServersFromMasterServerAddress
        (FanoutEnv.mk (fun _ => true) (fun a => some a) (fun b => some [b + 10])
      (fun s => some s) (fun b s => some (100 * s + b)) : FanoutEnv Nat Nat Nat) m) ∧
    (∀ m, m ∈ [1, 2] → m ≠ 1 → ∀ info,
      info ∈ fetchServersFromMasterServerAddress
        (FanoutEnv.mk (fun _ => true) (fun a => some a) (fun b => some [b + 10])
      (fun s => some s) (fun b s => some (100 * s + b)) : FanoutEnv Nat Nat Nat) m →
      info ∈ ServerInfosWithTimeouts
        (FanoutEnv.mk (fun a => decide (a ≠ 1)) (fun a => some a)
      (fun b => some [b + 10]) (fun s => some s)
      (fun b s => some (100 * s + b)) : FanoutEnv Nat Nat Nat) [1, 2]) :=
  claim_C8_fanout_isolation
    (FanoutEnv.mk (fun _ => true) (fun a => some a) (fun b => some [b + 10])
      (fun s => some s) (fun b s => some (100 * s + b)) : FanoutEnv Nat Nat Nat)
    (FanoutEnv.mk (fun a => decide (a ≠ 1)) (fun a => some a)
      (fun b => some [b + 10]) (fun s => some s)
      (fun b s => some (100 * s + b)) : FanoutEnv Nat Nat Nat)
    [1, 2] 1
    (fun a ha => by simp [ha])
    (fun _ _ => rfl) rfl rfl rfl
    (fun m hm hne resp servers h1 h2 => by
      simp only [Option.some.injEq] at h1 h2
      subst h1
      subst h2
      simp)

end Browser
